import Mathlib

/-!
# Verification of the overflow-proof wrapper library

A shallow embedding of the `overflow-proof` Rust crate: a pair of wrapper
types (`Checked`, `Unchecked`) that chain fixed-width integer arithmetic
while deferring overflow detection to a single explicit `check()` call,
plus the per-width checked-arithmetic capability traits
(`src/base_checked_ops.rs`).

Machine integers of each width/signedness are modelled as `Int` values
together with the range of the corresponding Rust type; the platform
checked primitives (`u8::checked_add`, ...) are modelled as range-checked
operations on `Int`, with Rust's truncated division (`Int.tdiv`) and
remainder (`Int.tmod`).
-/

/-- The value range of a fixed-width Rust integer type: the interval
`[lo, hi]` of representable values. Unsigned types have `lo = 0`. -/
structure IntTy where
  lo : Int
  hi : Int
deriving DecidableEq

/-- `x` is representable in the type, i.e. `lo ≤ x ≤ hi`. -/
def IntTy.inRange (ty : IntTy) (x : Int) : Prop :=
  ty.lo ≤ x ∧ x ≤ ty.hi

instance (ty : IntTy) (x : Int) : Decidable (ty.inRange x) := by
  unfold IntTy.inRange
  infer_instance

/-- The twelve integer types `impl_checked_all!` is invoked on in
`src/base_checked_ops.rs` lines 91-102 (`usize`/`isize` on a 64-bit
platform). -/
inductive RustTy
  | usize | isize
  | u8 | i8 | u16 | i16 | u32 | i32 | u64 | i64 | u128 | i128
deriving DecidableEq

/-- Value range of each supported Rust integer type. -/
def RustTy.toIntTy : RustTy → IntTy
  | .usize => ⟨0, 2 ^ 64 - 1⟩
  | .isize => ⟨-(2 ^ 63), 2 ^ 63 - 1⟩
  | .u8 => ⟨0, 2 ^ 8 - 1⟩
  | .i8 => ⟨-(2 ^ 7), 2 ^ 7 - 1⟩
  | .u16 => ⟨0, 2 ^ 16 - 1⟩
  | .i16 => ⟨-(2 ^ 15), 2 ^ 15 - 1⟩
  | .u32 => ⟨0, 2 ^ 32 - 1⟩
  | .i32 => ⟨-(2 ^ 31), 2 ^ 31 - 1⟩
  | .u64 => ⟨0, 2 ^ 64 - 1⟩
  | .i64 => ⟨-(2 ^ 63), 2 ^ 63 - 1⟩
  | .u128 => ⟨0, 2 ^ 128 - 1⟩
  | .i128 => ⟨-(2 ^ 127), 2 ^ 127 - 1⟩

/-! ## Platform checked primitives

The crate's capability-trait impls (`impl_checked_trait_2_for`,
`impl_checked_trait_1_for`) delegate to the platform's inherent checked
methods. These are modelled here by their standard semantics: the exact
mathematical result if representable, `none` otherwise; division and
remainder are `none` on a zero divisor and, for signed types, on
`MIN / -1` and `MIN % -1`. -/

/-- `checked_add` of the inherent integer type: the exact sum when it is
representable, `none` on overflow. -/
def checked_add (ty : IntTy) (a b : Int) : Option Int :=
  if ty.inRange (a + b) then some (a + b) else none

/-- `checked_sub`: the exact difference when representable, `none` on
overflow. -/
def checked_sub (ty : IntTy) (a b : Int) : Option Int :=
  if ty.inRange (a - b) then some (a - b) else none

/-- `checked_mul`: the exact product when representable, `none` on
overflow. -/
def checked_mul (ty : IntTy) (a b : Int) : Option Int :=
  if ty.inRange (a * b) then some (a * b) else none

/-- `checked_div`: `none` when the divisor is zero, or (signed types only,
`ty.lo < 0`) when dividing the minimum value by `-1`; otherwise the
truncated quotient, which is always representable. -/
def checked_div (ty : IntTy) (a b : Int) : Option Int :=
  if b = 0 ∨ (ty.lo < 0 ∧ a = ty.lo ∧ b = -1) then none
  else some (Int.tdiv a b)

/-- `checked_rem`: `none` exactly when `checked_div` is (including
`MIN % -1` on signed types, even though the remainder 0 would be
representable); otherwise the truncated remainder. -/
def checked_rem (ty : IntTy) (a b : Int) : Option Int :=
  if b = 0 ∨ (ty.lo < 0 ∧ a = ty.lo ∧ b = -1) then none
  else some (Int.tmod a b)

/-- `checked_neg`: the exact negation when representable (`0` only for
unsigned types; everything but `MIN` for signed types). -/
def checked_neg (ty : IntTy) (a : Int) : Option Int :=
  if ty.inRange (-a) then some (-a) else none

/-! ## Wrapper types (`src/lib.rs`) -/

/-- The marker parameter `D` of `Checked`/`Unchecked`: `WithDeref` offers a
semi-implicit read view of the inner value, `WithoutDeref` requires an
explicit conversion call. In Rust it is a zero-size phantom type; here it
is carried as a tag so that propagation can be stated. -/
inductive DerefMode
  | WithDeref
  | WithoutDeref
deriving DecidableEq

/-- `Checked<T, D>` (src/lib.rs lines 36-40): a wrapper around a valid
inner value `v`, carrying the deref-mode marker. -/
structure Checked where
  v : Int
  d : DerefMode
deriving DecidableEq

/-- `Unchecked<T, D>` (src/lib.rs lines 119-123): intermediate result of
arithmetic, `v = none` means overflow occurred at or before this point. -/
structure Unchecked where
  v : Option Int
  d : DerefMode
deriving DecidableEq

/-- `From<T> for Checked<T, D>` (src/lib.rs lines 56-60): stores the raw
value unmodified, for either marker. -/
def Checked.fromRaw (d : DerefMode) (v : Int) : Checked :=
  ⟨v, d⟩

/-- `Checked::new` (src/lib.rs lines 86-91): only on the `WithDeref`
variant. -/
def Checked.new (v : Int) : Checked :=
  ⟨v, .WithDeref⟩

/-- `Checked::new_with_deref` (src/lib.rs lines 79-84). -/
def Checked.new_with_deref (v : Int) : Checked :=
  ⟨v, .WithDeref⟩

/-- `Checked::new_without_deref` (src/lib.rs lines 95-100). -/
def Checked.new_without_deref (v : Int) : Checked :=
  ⟨v, .WithoutDeref⟩

/-- `Checked::into_inner` (src/lib.rs lines 63-65). -/
def Checked.into_inner (x : Checked) : Int :=
  x.v

/-- `Checked::to_inner` (src/lib.rs lines 72-74): clones the inner value;
on the `Int` model the clone is the value itself. -/
def Checked.to_inner (x : Checked) : Int :=
  x.v

/-- `Deref for Checked<T, WithDeref>` (src/lib.rs lines 104-110): the
read-only view of the inner value, offered only on the `WithDeref`
variant. -/
def Checked.derefView (x : Checked) : Int :=
  x.v

/-- `PartialEq<Checked<T, D1>> for Checked<T, D2>` (src/lib.rs lines
188-195): compares only the inner values, across any pair of markers. -/
def Checked.beq (x y : Checked) : Bool :=
  x.v == y.v

/-- `Unchecked::check` (src/lib.rs lines 143-148): collapse to
`Option<Checked>`, `none` if the inner value denotes overflow. -/
def Unchecked.check (u : Unchecked) : Option Checked :=
  u.v.map fun v => ⟨v, u.d⟩

/-! ## Arithmetic operators (`impl_op`, src/lib.rs lines 151-186)

`impl_op!` wires `Add`/`Sub`/`Mul`/`Div` for both wrappers to the
corresponding checked capability trait. -/

/-- The four operators wired by `impl_op!` invocations (src/lib.rs lines
183-186). -/
inductive ArithOp
  | add | sub | mul | div
deriving DecidableEq

/-- The five binary capability traits implemented per width by
`impl_checked_all!` via `impl_checked_trait_2_for` (rem has no operator,
but has the trait impls). -/
inductive BinOp
  | add | sub | mul | div | rem
deriving DecidableEq

/-- The checked primitive behind each binary capability trait. -/
def checkedBinOp (ty : IntTy) : BinOp → Int → Int → Option Int
  | .add => checked_add ty
  | .sub => checked_sub ty
  | .mul => checked_mul ty
  | .div => checked_div ty
  | .rem => checked_rem ty

/-- The second impl generated by `impl_checked_trait_2_for`
(src/base_checked_ops.rs lines 57-63): right-hand operand a
`Checked<T, D>`, unwrapped to its raw value before delegating. -/
def checkedBinOpRhsChecked (ty : IntTy) (op : BinOp) (a : Int)
    (rhs : Checked) : Option Int :=
  checkedBinOp ty op a rhs.v

def ArithOp.toBinOp : ArithOp → BinOp
  | .add => .add
  | .sub => .sub
  | .mul => .mul
  | .div => .div

/-- The checked primitive behind each of the four wired operators. -/
def checkedOp (ty : IntTy) (op : ArithOp) : Int → Int → Option Int :=
  checkedBinOp ty op.toBinOp

/-- The same expression computed directly on raw (unbounded) integers,
with Rust's truncated division for `/`. -/
def rawOp : ArithOp → Int → Int → Int
  | .add => fun a b => a + b
  | .sub => fun a b => a - b
  | .mul => fun a b => a * b
  | .div => fun a b => Int.tdiv a b

/-- Operator on `Checked` (first impl of `impl_op!`, src/lib.rs lines
153-165): applies the checked primitive and moves into `Unchecked`,
passing the marker through. -/
def Checked.applyOp (x : Checked) (ty : IntTy) (op : ArithOp)
    (rhs : Int) : Unchecked :=
  ⟨checkedOp ty op x.v rhs, x.d⟩

/-- Operator on `Unchecked` (second impl of `impl_op!`, src/lib.rs lines
167-179): `self.v.and_then(|v| v.checked_method(rhs))`, so an overflowed
state short-circuits. -/
def Unchecked.applyOp (u : Unchecked) (ty : IntTy) (op : ArithOp)
    (rhs : Int) : Unchecked :=
  ⟨u.v.bind fun v => checkedOp ty op v rhs, u.d⟩

/-- A chain of operator applications: the first operator is applied to a
`Checked` value, every further one to the resulting `Unchecked`. -/
def runChain (ty : IntTy) (x : Checked) (first : ArithOp × Int)
    (rest : List (ArithOp × Int)) : Unchecked :=
  rest.foldl (fun u s => u.applyOp ty s.1 s.2)
    (x.applyOp ty first.1 first.2)

/-- The same chain computed directly on raw integers, no overflow
checking. -/
def rawEval (a : Int) (steps : List (ArithOp × Int)) : Int :=
  steps.foldl (fun acc s => rawOp s.1 acc s.2) a

/-! ## Capability-trait implementation table (`impl_checked_all!`,
src/base_checked_ops.rs lines 80-89)

For every type it is invoked on, `impl_checked_all!` generates the traits
`CheckedAdd`, `CheckedSub`, `CheckedMul`, `CheckedDiv`, `CheckedRem`
(each with both a raw-rhs and a `Checked`-rhs impl) and `CheckedNeg`.
`CheckedAbs` is declared (lines 33-37) but never implemented: the only
impls are commented out (lines 104-112, nightly-only, and for `NonZero*`
types, not the integer types themselves). -/

/-- The seven capability traits declared in `src/base_checked_ops.rs`. -/
inductive CapOp
  | cadd | csub | cmul | cdiv | crem | cneg | cabs
deriving DecidableEq

/-- The capability traits `impl_checked_all!` implements for each type it
is invoked on (src/base_checked_ops.rs lines 80-89): the five binary
traits and `CheckedNeg`. `CheckedAbs` is absent. -/
def implsFor (_ : RustTy) : List CapOp :=
  [.cadd, .csub, .cmul, .cdiv, .crem, .cneg]

/-- The capability traits for which `impl_checked_all!` also generates a
`Checked`-rhs impl (those generated through `impl_checked_trait_2_for`,
src/base_checked_ops.rs lines 82-86). -/
def binaryImplsFor (_ : RustTy) : List CapOp :=
  [.cadd, .csub, .cmul, .cdiv, .crem]

/-! ## Helper lemmas -/

/-- When a wired checked primitive succeeds, its result is the raw
integer result of the same operator. -/
theorem checkedOp_eq_some (ty : IntTy) (op : ArithOp) (a b r : Int)
    (h : checkedOp ty op a b = some r) : r = rawOp op a b := by
  cases op <;>
    simp only [checkedOp, ArithOp.toBinOp, checkedBinOp, checked_add,
      checked_sub, checked_mul, checked_div, rawOp] at h ⊢ <;>
    split at h <;> simp_all

/-- Chained operations on `Unchecked` preserve the marker. -/
theorem foldl_applyOp_d (ty : IntTy) (ops : List (ArithOp × Int))
    (u : Unchecked) :
    (ops.foldl (fun u s => u.applyOp ty s.1 s.2) u).d = u.d := by
  induction ops generalizing u with
  | nil => rfl
  | cons p ops ih =>
    simpa [List.foldl, Unchecked.applyOp] using ih (u.applyOp ty p.1 p.2)

/-- Chained operations on an overflowed `Unchecked` stay overflowed. -/
theorem foldl_applyOp_none (ty : IntTy) (ops : List (ArithOp × Int))
    (u : Unchecked) (h : u.v = none) :
    (ops.foldl (fun u s => u.applyOp ty s.1 s.2) u).v = none := by
  induction ops generalizing u with
  | nil => exact h
  | cons p ops ih =>
    exact ih (u.applyOp ty p.1 p.2) (by simp [Unchecked.applyOp, h])

/-- The inner value after a chain depends only on the initial inner
value, not on the marker. -/
theorem foldl_applyOp_v_congr (ty : IntTy) (ops : List (ArithOp × Int))
    (u u' : Unchecked) (h : u.v = u'.v) :
    (ops.foldl (fun u s => u.applyOp ty s.1 s.2) u).v
      = (ops.foldl (fun u s => u.applyOp ty s.1 s.2) u').v := by
  induction ops generalizing u u' with
  | nil => exact h
  | cons p ops ih =>
    exact ih (u.applyOp ty p.1 p.2) (u'.applyOp ty p.1 p.2)
      (by simp [Unchecked.applyOp, h])

/-- If the chain ends in a valid value `r`, the starting `Unchecked` was
valid and `r` is the raw evaluation of the remaining steps. -/
theorem foldl_applyOp_some (ty : IntTy) (ops : List (ArithOp × Int))
    (u : Unchecked) (r : Int)
    (h : (ops.foldl (fun u s => u.applyOp ty s.1 s.2) u).v = some r) :
    ∃ v0, u.v = some v0 ∧ r = rawEval v0 ops := by
  induction ops generalizing u with
  | nil => exact ⟨r, h, rfl⟩
  | cons p ops ih =>
    obtain ⟨v1, h1, hr⟩ := ih (u.applyOp ty p.1 p.2) h
    cases hu : u.v with
    | none => simp [Unchecked.applyOp, hu] at h1
    | some v0 =>
      simp only [Unchecked.applyOp, hu, Option.bind_some] at h1
      refine ⟨v0, rfl, ?_⟩
      have hv1 : v1 = rawOp p.1 v0 p.2 := checkedOp_eq_some ty p.1 v0 p.2 v1 h1
      simpa [rawEval, List.foldl, ← hv1] using hr

/-! ## The claims -/

/-- C1: if every operation in a chain started from a wrapped value `a`
stays in range (the final `Unchecked` holds `some r`), then collapsing
with `check` yields `some` of a valid value carrying the marker of `a`,
whose inner value `r` equals the same expression computed directly on raw
integers. -/
theorem chain_collapse_exact (ty : IntTy) (d : DerefMode) (a : Int)
    (first : ArithOp × Int) (rest : List (ArithOp × Int)) (r : Int)
    (h : (runChain ty ⟨a, d⟩ first rest).v = some r) :
    (runChain ty ⟨a, d⟩ first rest).check = some ⟨r, d⟩ ∧
      r = rawEval (rawOp first.1 a first.2) rest := by
  unfold runChain at h ⊢
  have hd := foldl_applyOp_d ty rest
    ((Checked.mk a d).applyOp ty first.1 first.2)
  constructor
  · unfold Unchecked.check
    rw [h, hd]
    rfl
  · obtain ⟨v0, hv0, hr⟩ := foldl_applyOp_some ty rest _ r h
    simp only [Checked.applyOp] at hv0
    rwa [← checkedOp_eq_some ty first.1 a first.2 v0 hv0]

/-- Witness for C1 at the concrete chain `1 * 12 - 2` on `u8`. -/
theorem chain_collapse_exact_witness :
    (runChain (RustTy.toIntTy .u8) ⟨1, .WithDeref⟩ (.mul, 12)
        [(.sub, 2)]).check = some ⟨10, .WithDeref⟩ ∧
      (10 : Int) = rawEval (rawOp .mul 1 12) [(.sub, 2)] :=
  chain_collapse_exact (RustTy.toIntTy .u8) .WithDeref 1 (.mul, 12)
    [(.sub, 2)] 10 (by decide)

/-- C2: overflow is contagious and never heals: once an `Unchecked` is in
the overflowed state, any further chain of operations leaves it
overflowed, and `check` returns `none` no matter how many operations were
chained on. -/
theorem overflow_contagious (ty : IntTy) (u : Unchecked) (h : u.v = none)
    (ops : List (ArithOp × Int)) :
    (ops.foldl (fun u s => u.applyOp ty s.1 s.2) u).v = none ∧
      (ops.foldl (fun u s => u.applyOp ty s.1 s.2) u).check = none := by
  have hv := foldl_applyOp_none ty ops u h
  exact ⟨hv, by simp [Unchecked.check, hv]⟩

/-- Witness for C2: an overflowed `u8` intermediate pushed through a
further addition still collapses to `none`. -/
theorem overflow_contagious_witness :
    (List.foldl (fun (u : Unchecked) (s : ArithOp × Int) =>
          u.applyOp (RustTy.toIntTy .u8) s.1 s.2)
        ⟨none, .WithDeref⟩ [(.add, 1)]).v = none ∧
      (List.foldl (fun (u : Unchecked) (s : ArithOp × Int) =>
          u.applyOp (RustTy.toIntTy .u8) s.1 s.2)
        ⟨none, .WithDeref⟩ [(.add, 1)]).check = none :=
  overflow_contagious (RustTy.toIntTy .u8) ⟨none, .WithDeref⟩ rfl
    [(.add, 1)]

/-- C3: for every supported integer type, `checked_div` and `checked_rem`
return `none` (rather than failing) whenever the divisor is zero and, for
signed types, when the dividend is the minimum value and the divisor is
`-1`. (In this embedding all capability implementations are total Lean
functions: every failure is communicated as `none`, never as a panic.) -/
theorem div_rem_edge_cases_none (t : RustTy) (a b : Int)
    (h : b = 0 ∨ (t.toIntTy.lo < 0 ∧ a = t.toIntTy.lo ∧ b = -1)) :
    checked_div t.toIntTy a b = none ∧ checked_rem t.toIntTy a b = none := by
  unfold checked_div checked_rem
  rw [if_pos h, if_pos h]
  exact ⟨rfl, rfl⟩

/-- Witness for C3 at `i8`: `(-128) / (-1)` and `(-128) % (-1)` are both
`none`. -/
theorem div_rem_edge_cases_none_witness :
    checked_div (RustTy.toIntTy .i8) (-128) (-1) = none ∧
      checked_rem (RustTy.toIntTy .i8) (-128) (-1) = none :=
  div_rem_edge_cases_none .i8 (-128) (-1) (by decide)

/-- C4 counterexample: `CheckedAbs` is not among the capability traits
`impl_checked_all!` implements, for any supported type (`u8` shown); the
only `CheckedAbs` impls in the source are commented out, nightly-only, and
for `NonZero*` types. So not all seven operations are available. -/
theorem cabs_not_implemented : CapOp.cabs ∉ implsFor RustTy.u8 := by
  decide

/-- C4 (amended): every supported integer type implements the six
capability traits checked-add, -sub, -mul, -div, -rem and -neg (but not
checked-abs, which is declared and never implemented), and exactly the
five binary ones among them additionally accept a valid-value wrapper as
right-hand operand. -/
theorem impl_table_six_ops (t : RustTy) (op : CapOp) :
    (op ∈ implsFor t ↔ op ≠ .cabs) ∧
      (op ∈ binaryImplsFor t ↔ (op ≠ .cabs ∧ op ≠ .cneg)) := by
  cases op <;> simp [implsFor, binaryImplsFor]

/-- C5: the four concrete 8-bit unsigned scenarios: `1 * 12 - 2`
collapses to `10`; `1 + 255` collapses to `none`; `255 + 5 - 100`
collapses to `none` (the overflow persists through the subtraction);
`200 - 50` collapses to `150`. -/
theorem u8_scenarios :
    (((Checked.new 1).applyOp (RustTy.toIntTy .u8) .mul 12).applyOp
        (RustTy.toIntTy .u8) .sub 2).check = some (Checked.new 10) ∧
      ((Checked.new 1).applyOp (RustTy.toIntTy .u8) .add 255).check
        = none ∧
      (((Checked.new 255).applyOp (RustTy.toIntTy .u8) .add 5).applyOp
        (RustTy.toIntTy .u8) .sub 100).check = none ∧
      ((Checked.new 200).applyOp (RustTy.toIntTy .u8) .sub 50).check
        = some (Checked.new 150) := by
  decide

/-- C6: for every supported type, binary capability trait and marker, the
impl taking a `Checked` right-hand operand returns exactly what the
raw-rhs impl returns on the wrapped value: it unwraps and delegates. -/
theorem rhs_checked_delegates (t : RustTy) (op : BinOp) (x y : Int)
    (d : DerefMode) :
    checkedBinOpRhsChecked t.toIntTy op x ⟨y, d⟩
      = checkedBinOp t.toIntTy op x y :=
  rfl

/-- C7: the deref-mode marker never influences arithmetic and is
propagated unchanged: two chains differing only in the starting marker
have the same inner value at every length, the marker of every chain
result is the marker of the starting value, and the collapsed results
hold the same inner value. -/
theorem deref_mode_transparent (ty : IntTy) (v : Int) (d d' : DerefMode)
    (first : ArithOp × Int) (rest : List (ArithOp × Int)) :
    (runChain ty ⟨v, d⟩ first rest).v = (runChain ty ⟨v, d'⟩ first rest).v ∧
      (runChain ty ⟨v, d⟩ first rest).d = d ∧
      ((runChain ty ⟨v, d⟩ first rest).check).map Checked.v
        = ((runChain ty ⟨v, d'⟩ first rest).check).map Checked.v := by
  have hv : (runChain ty ⟨v, d⟩ first rest).v
      = (runChain ty ⟨v, d'⟩ first rest).v := by
    unfold runChain
    exact foldl_applyOp_v_congr ty rest _ _ rfl
  refine ⟨hv, ?_, ?_⟩
  · unfold runChain
    exact foldl_applyOp_d ty rest _
  · simp [Unchecked.check, Option.map_map, hv]
    rfl

/-- C8: wrapper equality compares only the inner raw value, across
deref-mode markers: it is reflexive, symmetric and transitive, and two
wrappers with different markers over the same value are equal. -/
theorem beq_inner_only (a b c : Checked) (hab : a.beq b = true)
    (hbc : b.beq c = true) :
    a.beq a = true ∧ b.beq a = true ∧ a.beq c = true ∧
      ∀ (v : Int) (d1 d2 : DerefMode),
        (Checked.mk v d1).beq (Checked.mk v d2) = true := by
  have hab' : a.v = b.v := by simpa [Checked.beq] using hab
  have hbc' : b.v = c.v := by simpa [Checked.beq] using hbc
  refine ⟨?_, ?_, ?_, ?_⟩ <;> simp [Checked.beq, hab', hbc']

/-- Witness for C8 at three concrete wrappers over `0` with mixed
markers. -/
theorem beq_inner_only_witness :
    (Checked.mk 0 .WithDeref).beq (Checked.mk 0 .WithDeref) = true ∧
      (Checked.mk 0 .WithoutDeref).beq (Checked.mk 0 .WithDeref) = true ∧
      (Checked.mk 0 .WithDeref).beq (Checked.mk 0 .WithDeref) = true ∧
      ∀ (v : Int) (d1 d2 : DerefMode),
        (Checked.mk v d1).beq (Checked.mk v d2) = true :=
  beq_inner_only (Checked.mk 0 .WithDeref) (Checked.mk 0 .WithoutDeref)
    (Checked.mk 0 .WithDeref) (by decide) (by decide)

/-- C9: the implicit read view of a `WithDeref`-tagged wrapper around `v`
yields the same raw value as the explicit extraction calls (`to_inner`,
`into_inner`) on an equally tagged wrapper around `v`. -/
theorem deref_view_eq_extraction (v : Int) :
    (Checked.new_with_deref v).derefView
        = (Checked.new_with_deref v).to_inner ∧
      (Checked.new_with_deref v).derefView
        = (Checked.new_with_deref v).into_inner :=
  ⟨rfl, rfl⟩

/-- C10: construction and extraction round-trip exactly: every
constructor (`From`, `new`, `new_with_deref`, `new_without_deref`) stores
the raw value unmodified, and `into_inner`/`to_inner` return it. -/
theorem construct_extract_roundtrip (v : Int) (d : DerefMode) :
    (Checked.fromRaw d v).v = v ∧
      (Checked.fromRaw d v).into_inner = v ∧
      (Checked.fromRaw d v).to_inner = v ∧
      (Checked.new v).into_inner = v ∧
      (Checked.new_with_deref v).into_inner = v ∧
      (Checked.new_without_deref v).into_inner = v ∧
      (Checked.new v).to_inner = v ∧
      (Checked.new_with_deref v).to_inner = v ∧
      (Checked.new_without_deref v).to_inner = v :=
  ⟨rfl, rfl, rfl, rfl, rfl, rfl, rfl, rfl, rfl⟩
